import Mathlib

/-!
Verification development for the image-compressor-rs compression pipeline.

The Rust sources (src/lib.rs, src/plugin.rs) are shallowly embedded below:
pure routines become Lean functions, the filesystem becomes an explicit
`FS` state threaded through the pipeline, and the external codec
collaborators (image decoder, mozjpeg, oxipng, libwebp, ravif) become an
abstract `Codecs` record of opaque functions, since the spec treats them as
black boxes.  Machine integers (u8/u32/u64) are modelled as `Nat`; the
bridge reproduces Rust's `as u8` / `as u32` truncation with `% 256` /
`% 2^32` where it occurs.  The f64 savings percentage is modelled over `ℚ`.
-/

namespace ImageCompressor

/-- Bytes of a file, modelled as a list of byte values. -/
abbrev Bytes := List Nat

/-- A directory path, as a list of components. -/
abbrev DirPath := List String

/-- A file path: directory components, a base name (file stem) and an
optional extension.  Mirrors the `std::path::Path` operations the code
uses (`extension`, `set_extension`, `parent`, `join`, prefix stripping). -/
structure Path where
  dirs : List String
  base : String
  ext : Option String
  deriving Repr, DecidableEq

/-- Render a path for error messages (`Path::display`). -/
def Path.display (p : Path) : String :=
  String.intercalate "/"
    (p.dirs ++ [p.base ++ (match p.ext with | some e => "." ++ e | none => "")])

/-- `output.parent()` — the directory holding the file. -/
def Path.parent (p : Path) : DirPath := p.dirs

/-- `output_dir.join(relative_path)` from src/lib.rs line 190. -/
def Path.join (d : DirPath) (p : Path) : Path := { p with dirs := d ++ p.dirs }

/-- `target_path.set_extension(ext)` from src/lib.rs line 191. -/
def Path.set_extension (p : Path) (e : String) : Path := { p with ext := some e }

/-- `source_path.strip_prefix(input_dir)` from src/lib.rs line 185:
succeeds exactly when the directory components of `p` start with `pre`. -/
def Path.strip_prefix_dir (pre : DirPath) (p : Path) : Option Path :=
  if pre.isPrefixOf p.dirs then some { p with dirs := p.dirs.drop pre.length }
  else none

/-- Error values of the library, one constructor per `bail!`/`context`
site in src/lib.rs (the `anyhow::Error` payloads the code can produce). -/
inductive CompressError where
  | emptyExtension
  | unsupportedFormat (token : String)
  | inputNotFound (p : Path)
  | outputExists (p : Path)
  | readFailed (p : Path)
  | missingOutputExtension
  | decodeFailed
  | encodeFailed
  | pngOptimizeFailed
  | inputDirNotFound
  | invalidResize
  deriving Repr, DecidableEq

/-- The error messages of the `bail!`/`context` sites in src/lib.rs. -/
def CompressError.message : CompressError → String
  | .emptyExtension => "format/extension cannot be empty"
  | .unsupportedFormat t => "unsupported output format: " ++ t
  | .inputNotFound p => "input file not found: " ++ p.display
  | .outputExists p => "output file exists (use --overwrite to replace): " ++ p.display
  | .readFailed p => "failed to read input file: " ++ p.display
  | .missingOutputExtension => "output path must include a file extension"
  | .decodeFailed => "failed to decode image"
  | .encodeFailed => "failed to encode image"
  | .pngOptimizeFailed => "PNG optimization failed"
  | .inputDirNotFound => "input directory not found"
  | .invalidResize => "resize width and height must be greater than zero"

/-- Supported compression output formats (src/lib.rs lines 10-16). -/
inductive OutputFormat where
  | Jpeg
  | Png
  | WebP
  | Avif
  deriving Repr, DecidableEq

/-- Rust `str::trim` over the character list: drop whitespace from both
ends (`Char.isWhitespace` agrees with Rust's `char::is_whitespace` on
ASCII input). -/
def trim_chars (cs : List Char) : List Char :=
  ((cs.dropWhile Char.isWhitespace).reverse.dropWhile Char.isWhitespace).reverse

/-- `normalize_extension` (src/lib.rs lines 400-406): trim surrounding
whitespace, strip all leading dots (`trim_start_matches('.')`), reject the
empty remainder, lowercase (`Char.toLower` is exactly Rust's
`to_ascii_lowercase`). -/
def normalize_extension (extension : String) : Except CompressError String :=
  let cleaned := (trim_chars extension.toList).dropWhile (fun c => c == '.')
  if cleaned.isEmpty then .error .emptyExtension
  else .ok (String.mk (cleaned.map Char.toLower))

/-- `OutputFormat::from_extension` (src/lib.rs lines 19-27). -/
def OutputFormat.from_extension (extension : String) : Except CompressError OutputFormat :=
  match normalize_extension extension with
  | .error e => .error e
  | .ok s =>
    match s with
    | "jpg" | "jpeg" => .ok .Jpeg
    | "png" => .ok .Png
    | "webp" => .ok .WebP
    | "avif" => .ok .Avif
    | other => .error (.unsupportedFormat other)

/-- How to resize (src/lib.rs lines 31-35). -/
inductive ResizeMode where
  | Fit
  | Exact
  deriving Repr, DecidableEq

/-- Resize configuration (src/lib.rs lines 37-42); dimensions are u32. -/
structure ResizeOptions where
  width : Nat
  height : Nat
  mode : ResizeMode
  deriving Repr, DecidableEq

/-- `ResizeOptions::new` (src/lib.rs lines 45-54). -/
def ResizeOptions.new (width height : Nat) (mode : ResizeMode) :
    Except CompressError ResizeOptions :=
  if width = 0 ∨ height = 0 then .error .invalidResize
  else .ok { width, height, mode }

/-- Main configuration for compression (src/lib.rs lines 58-68), with the
`Default` impl (lines 70-83) as field defaults. -/
structure CompressOptions where
  overwrite : Bool := false
  quality : Option Nat := none
  lossless : Bool := false
  progressive : Bool := false
  strip_metadata : Bool := true
  resize : Option ResizeOptions := none
  png_level : Option Nat := none
  avif_speed : Option Nat := none
  deriving Repr, DecidableEq

/-- `CompressOptions::default()`. -/
def CompressOptions.default : CompressOptions := {}

/-- The derived savings percentage computed in `compress_image_file`
(src/lib.rs lines 149-153), with the f64 arithmetic modelled over `ℚ`:
`(1 - compressed/original) * 100` when `original > 0`, else `0`. -/
def savings_percent (original_bytes compressed_bytes : Nat) : ℚ :=
  if original_bytes > 0 then
    (1 - (compressed_bytes : ℚ) / (original_bytes : ℚ)) * 100
  else 0

/-- Stats for a single compression operation (src/lib.rs lines 86-91). -/
structure CompressionStats where
  original_bytes : Nat
  compressed_bytes : Nat
  savings_percent : ℚ
  deriving Repr, DecidableEq

/-- Batch operation report (src/lib.rs lines 94-101), with the derived
`Default` as field defaults. -/
structure BatchReport where
  compressed : Nat := 0
  skipped : Nat := 0
  failed : Nat := 0
  total_original_bytes : Nat := 0
  total_compressed_bytes : Nat := 0
  deriving Repr, DecidableEq

/-- `BatchReport::default()`. -/
def BatchReport.default : BatchReport := {}

/-- Result of `image::guess_format`: the sniffed source encoding. -/
inductive SniffedFormat where
  | png
  | jpeg
  | webp
  | avif
  | other
  deriving Repr, DecidableEq

/-- A decoded pixel buffer (`image::DynamicImage`), kept abstract: width,
height and raw pixel data.  The codec collaborators below are the only
functions that inspect it. -/
structure Image where
  width : Nat
  height : Nat
  pixels : List Nat
  deriving Repr, DecidableEq

/-- The external codec collaborators (spec §6), as opaque functions:
`image` crate decoding and resampling, mozjpeg, oxipng, libwebp, ravif.
Fallible collaborators return `Option`. -/
structure Codecs where
  guess_format : Bytes → Option SniffedFormat
  decode_with_format : Bytes → SniffedFormat → Option Image
  decode_auto : Bytes → Option Image
  resize_fit : Image → Nat → Nat → Image
  resize_exact : Image → Nat → Nat → Image
  encode_jpeg : Image → Nat → Bool → Option Bytes
  encode_png_baseline : Image → Option Bytes
  oxipng : Bytes → Nat → Bool → Option Bytes
  encode_webp : Image → Bool → Nat → Bytes
  encode_avif : Image → Nat → Nat → Option Bytes

/-- The filesystem state threaded through the pipeline: regular files with
their contents (later entries shadowed by earlier ones) and the set of
existing directories. -/
structure FS where
  files : List (Path × Bytes)
  dirs : List DirPath
  deriving Repr, DecidableEq

/-- `fs::read`: content of a regular file, if present. -/
def FS.readFile (fs : FS) (p : Path) : Option Bytes :=
  (fs.files.find? (fun e => e.fst = p)).map (·.snd)

/-- `path.is_file()`. -/
def FS.isFile (fs : FS) (p : Path) : Bool :=
  (fs.readFile p).isSome

/-- `path.exists()` for a file path. -/
def FS.pathExists (fs : FS) (p : Path) : Bool :=
  fs.isFile p

/-- `path.is_dir()`. -/
def FS.isDir (fs : FS) (d : DirPath) : Bool :=
  decide (d ∈ fs.dirs)

/-- All ancestor directories of a directory path, itself included. -/
def DirPath.ancestors (d : DirPath) : List DirPath :=
  (List.range (d.length + 1)).map (fun n => d.take n)

/-- `fs::create_dir_all`: records the directory and all its ancestors.
Modelled as infallible (the embedding has no I/O faults). -/
def FS.createDirAll (fs : FS) (d : DirPath) : FS :=
  { fs with dirs := fs.dirs ++ DirPath.ancestors d }

/-- `fs::write`: store the full byte buffer at the path. -/
def FS.writeFile (fs : FS) (p : Path) (b : Bytes) : FS :=
  { fs with files := (p, b) :: fs.files }

/-- Observable codec/filesystem effects of one pipeline run, used to state
when decode/encode work happens and when the output gets written. -/
inductive Event where
  | decode (bytes : Bytes)
  | encode (format : OutputFormat)
  | optimizePng (bytes : Bytes)
  | write (p : Path) (bytes : Bytes)
  deriving Repr, DecidableEq

/-- `resize_image` (src/lib.rs lines 346-351). -/
def resize_image (C : Codecs) (image : Image) (resize : ResizeOptions) : Image :=
  match resize.mode with
  | .Fit => C.resize_fit image resize.width resize.height
  | .Exact => C.resize_exact image resize.width resize.height

/-- `decode_and_resize` (src/lib.rs lines 332-344): sniff the format and
decode with it, falling back to auto-detection when sniffing fails; then
apply the resize policy when requested.  Also reports the decode event. -/
def decode_and_resize (C : Codecs) (bytes : Bytes) (options : CompressOptions) :
    Except CompressError Image × List Event :=
  let decoded := match C.guess_format bytes with
    | some format => C.decode_with_format bytes format
    | none => C.decode_auto bytes
  match decoded with
  | none => (.error .decodeFailed, [.decode bytes])
  | some image =>
    match options.resize with
    | some resize => (.ok (resize_image C image resize), [.decode bytes])
    | none => (.ok image, [.decode bytes])

/-- The oxipng invocation inside `compress_png` (src/lib.rs lines 274-280):
preset from `options.png_level` (default 2), safe-chunk stripping from
`options.strip_metadata`. -/
def run_oxipng (C : Codecs) (png_bytes : Bytes) (options : CompressOptions) :
    Except CompressError Bytes :=
  let level := options.png_level.getD 2
  match C.oxipng png_bytes level options.strip_metadata with
  | some out => .ok out
  | none => .error .pngOptimizeFailed

/-- `compress_png` (src/lib.rs lines 260-281): when a decoded image is
given, first re-encode it to baseline PNG bytes; otherwise take the raw
input bytes; then optimize with oxipng. -/
def compress_png (C : Codecs) (input_bytes : Bytes) (image : Option Image)
    (options : CompressOptions) : Except CompressError Bytes × List Event :=
  match image with
  | some img =>
    match C.encode_png_baseline img with
    | none => (.error .encodeFailed, [.encode .Png])
    | some buf => (run_oxipng C buf options, [.encode .Png, .optimizePng buf])
  | none => (run_oxipng C input_bytes options, [.optimizePng input_bytes])

/-- `compress_jpeg` (src/lib.rs lines 239-258): quality default 85, the
progressive flag selects scan optimization. -/
def compress_jpeg (C : Codecs) (image : Image) (options : CompressOptions) :
    Except CompressError Bytes × List Event :=
  match C.encode_jpeg image (options.quality.getD 85) options.progressive with
  | some out => (.ok out, [.encode .Jpeg])
  | none => (.error .encodeFailed, [.encode .Jpeg])

/-- `compress_webp` (src/lib.rs lines 283-296): lossless flag selects the
lossless path, otherwise lossy with quality default 85; infallible. -/
def compress_webp (C : Codecs) (image : Image) (options : CompressOptions) :
    Except CompressError Bytes × List Event :=
  (.ok (C.encode_webp image options.lossless (options.quality.getD 85)), [.encode .WebP])

/-- `compress_avif` (src/lib.rs lines 298-326): quality forced to 100 when
lossless, else default 80; speed default 4; alpha encoded at the same
quality (folded into the single quality argument of the collaborator). -/
def compress_avif (C : Codecs) (image : Image) (options : CompressOptions) :
    Except CompressError Bytes × List Event :=
  let quality := if options.lossless then 100 else options.quality.getD 80
  let speed := options.avif_speed.getD 4
  match C.encode_avif image quality speed with
  | some out => (.ok out, [.encode .Avif])
  | none => (.error .encodeFailed, [.encode .Avif])

/-- `image::guess_format(..).map(|f| f == ImageFormat::Png).unwrap_or(false)`
(src/lib.rs lines 126-128). -/
def sniff_is_png (C : Codecs) (bytes : Bytes) : Bool :=
  ((C.guess_format bytes).map (fun f => decide (f = SniffedFormat.png))).getD false

/-- The dispatch on lines 124-143 of src/lib.rs, producing the compressed
byte buffer: the PNG fast path runs oxipng directly on the raw input when
the target is PNG, no resize was requested, and the input sniffs as PNG;
every other case decodes (and possibly resizes) first and then dispatches
to the format-specific encoder. -/
def compress_bytes (C : Codecs) (input_bytes : Bytes) (format : OutputFormat)
    (options : CompressOptions) : Except CompressError Bytes × List Event :=
  if format = OutputFormat.Png ∧ options.resize = none then
    if sniff_is_png C input_bytes then
      compress_png C input_bytes none options
    else
      match decode_and_resize C input_bytes options with
      | (.error e, evs) => (.error e, evs)
      | (.ok image, evs) =>
        let r := compress_png C [] (some image) options
        (r.1, evs ++ r.2)
  else
    match decode_and_resize C input_bytes options with
    | (.error e, evs) => (.error e, evs)
    | (.ok image, evs) =>
      let r := match format with
        | .Jpeg => compress_jpeg C image options
        | .Png => compress_png C [] (some image) options
        | .WebP => compress_webp C image options
        | .Avif => compress_avif C image options
      (r.1, evs ++ r.2)

/-- `validate_input_and_output` (src/lib.rs lines 353-371): in order,
the input must be an existing regular file; the output must not already
exist unless overwriting is allowed; the output's parent directory is
created. -/
def validate_input_and_output (fs : FS) (input output : Path)
    (options : CompressOptions) : Except CompressError FS :=
  if ¬ fs.isFile input then .error (.inputNotFound input)
  else if fs.pathExists output ∧ ¬ options.overwrite then .error (.outputExists output)
  else .ok (fs.createDirAll output.parent)

/-- `compress_image_file` (src/lib.rs lines 107-160): validate, read the
input, resolve the output format from the output extension, produce the
compressed buffer via the dispatch, write it, and return the stats.
Returns the result, the final filesystem, and the codec/write events. -/
def compress_image_file (C : Codecs) (fs : FS) (input output : Path)
    (options : CompressOptions) :
    Except CompressError CompressionStats × FS × List Event :=
  match validate_input_and_output fs input output options with
  | .error e => (.error e, fs, [])
  | .ok fs1 =>
    match fs1.readFile input with
    | none => (.error (.readFailed input), fs1, [])
    | some input_bytes =>
      let original_bytes := input_bytes.length
      match output.ext with
      | none => (.error .missingOutputExtension, fs1, [])
      | some ext =>
        match OutputFormat.from_extension ext with
        | .error e => (.error e, fs1, [])
        | .ok format =>
          let r := compress_bytes C input_bytes format options
          match r.1 with
          | .error e => (.error e, fs1, r.2)
          | .ok compressed =>
            let fs2 := fs1.writeFile output compressed
            let compressed_bytes := compressed.length
            (.ok { original_bytes := original_bytes,
                   compressed_bytes := compressed_bytes,
                   savings_percent := savings_percent original_bytes compressed_bytes },
             fs2, r.2 ++ [.write output compressed])

/-- `collect_input_files` (src/lib.rs lines 373-398): all regular files
under the input directory (its whole subtree when recursive, only its
immediate entries otherwise), in filesystem order. -/
def collect_input_files (fs : FS) (input_dir : DirPath) (recursive : Bool) : List Path :=
  if recursive then
    (fs.files.map Prod.fst).filter (fun p => input_dir.isPrefixOf p.dirs)
  else
    (fs.files.map Prod.fst).filter (fun p => p.dirs = input_dir)

/-- The per-file loop body of `compress_directory` (src/lib.rs lines
184-230): strip the input-dir prefix (counting a failure), map the file
under the output dir with the target extension, create the destination's
parent directory, apply the skip/overwrite policy, and otherwise run the
single-file pipeline, tallying the outcome. -/
def process_file (C : Codecs) (input_dir output_dir : DirPath) (to_extension : String)
    (options : CompressOptions) (acc : BatchReport × FS) (source_path : Path) :
    BatchReport × FS :=
  let report := acc.1
  let fs := acc.2
  match Path.strip_prefix_dir input_dir source_path with
  | none => ({ report with failed := report.failed + 1 }, fs)
  | some relative_path =>
    let target_path := (Path.join output_dir relative_path).set_extension to_extension
    let fs := fs.createDirAll target_path.parent
    if fs.pathExists target_path ∧ ¬ options.overwrite then
      ({ report with skipped := report.skipped + 1 }, fs)
    else
      match compress_image_file C fs source_path target_path options with
      | (.ok stats, fs2, _) =>
        ({ report with
             compressed := report.compressed + 1,
             total_original_bytes := report.total_original_bytes + stats.original_bytes,
             total_compressed_bytes := report.total_compressed_bytes + stats.compressed_bytes },
         fs2)
      | (.error _, fs2, _) =>
        ({ report with failed := report.failed + 1 }, fs2)

/-- `compress_directory` (src/lib.rs lines 162-233): require the input
directory, create the output directory, normalize the target extension,
collect the input files and fold the per-file loop over them. -/
def compress_directory (C : Codecs) (fs : FS) (input_dir output_dir : DirPath)
    (to_extension : String) (options : CompressOptions) (recursive : Bool) :
    Except CompressError BatchReport × FS :=
  if ¬ fs.isDir input_dir then (.error .inputDirNotFound, fs)
  else
    let fs1 := fs.createDirAll output_dir
    match normalize_extension to_extension with
    | .error e => (.error e, fs1)
    | .ok to_ext =>
      let files := collect_input_files fs1 input_dir recursive
      let r := files.foldl (process_file C input_dir output_dir to_ext options)
        (BatchReport.default, fs1)
      (.ok r.1, r.2)

/-- A JSON value (`serde_json::Value`); numbers restricted to integers,
which covers every field the bridge reads. -/
inductive Json where
  | null
  | bool (b : Bool)
  | num (n : Int)
  | str (s : String)
  | arr (items : List Json)
  | obj (fields : List (String × Json))

/-- `value.get(key)` on a JSON object. -/
def Json.get (j : Json) (key : String) : Option Json :=
  match j with
  | .obj fields => (fields.find? (fun kv => kv.fst == key)).map (·.snd)
  | _ => none

/-- `Value::as_str`. -/
def Json.asStr : Json → Option String
  | .str s => some s
  | _ => none

/-- `Value::as_u64`, as a `Nat`. -/
def Json.asNat : Json → Option Nat
  | .num n => if 0 ≤ n then some n.toNat else none
  | _ => none

/-- `Value::as_bool`. -/
def Json.asBool : Json → Option Bool
  | .bool b => some b
  | _ => none

/-- `Value::is_null`. -/
def Json.isNull : Json → Bool
  | .null => true
  | _ => false

/-- A JSON-RPC response as built by `ok`/`err` (src/plugin.rs lines
311-317): a result or an error with code and message, tied to the id. -/
inductive Response where
  | ok (id : Json) (result : Json)
  | err (id : Json) (code : Int) (message : String)

/-- The single-file pipeline as seen from the bridge boundary
(string paths in, stats or error out); instantiated by the library's
`compress_image_file` at the path-parsing boundary. -/
abbrev ImgPipeline := String → String → CompressOptions → Except CompressError CompressionStats

/-- The batch pipeline as seen from the bridge boundary (input dir,
output dir, target format token, options; recursion is fixed to true at
the call site, src/plugin.rs line 288). -/
abbrev DirPipeline := String → String → String → CompressOptions → Except CompressError BatchReport

/-- Round `num/den` to the nearest integer, ties to even, matching Rust's
float formatting of the size strings. -/
def round_half_even (num den : Nat) : Nat :=
  let q := num / den
  let r := num % den
  if 2 * r > den then q + 1
  else if 2 * r < den then q
  else if q % 2 = 0 then q else q + 1

/-- `format_size` (src/lib.rs lines 408-416). -/
def format_size (bytes : Nat) : String :=
  if bytes ≥ 1000000 then
    let tenths := round_half_even bytes 100000
    toString (tenths / 10) ++ "." ++ toString (tenths % 10) ++ " MB"
  else if bytes ≥ 1000 then
    toString (round_half_even bytes 1000) ++ " KB"
  else
    toString bytes ++ " B"

/-- Render the savings percentage to one decimal place (the `{:.1}` in the
success texts), ties to even over the exact rational. -/
def format_percent (q : ℚ) : String :=
  let sign := if q < 0 then "-" else ""
  let num := (|q| * 10).num.toNat
  let den := (|q| * 10).den
  let tenths := round_half_even num den
  sign ++ toString (tenths / 10) ++ "." ++ toString (tenths % 10)

/-- `Path::with_extension` on a string path (src/plugin.rs lines 204, 211)
for ordinary unix-style paths: in the last `/`-separated component, drop
an existing extension (a suffix after a dot that does not start the
component) and append the new one. -/
def with_extension (path ext : String) : String :=
  let parts := path.splitOn "/"
  let file := (parts.getLast? ).getD ""
  let chars := file.toList
  let stemLen :=
    match (List.range chars.length).filter
        (fun i => 0 < i ∧ chars.get? i = some '.') with
    | [] => chars.length
    | is => is.getLast?.getD chars.length
  let stem := String.mk (chars.take stemLen)
  let newFile := if ext.isEmpty then stem else stem ++ "." ++ ext
  String.intercalate "/" (parts.dropLast ++ [newFile])

/-- The `format` normalization in `call_compress_image` (src/plugin.rs
lines 191-197): `"jpeg"` becomes `"jpg"`, anything else is kept. -/
def image_call_format_ext (args : Json) : Option String :=
  ((args.get "format").bind Json.asStr).map (fun f => if f = "jpeg" then "jpg" else f)

/-- The output path computed by `call_compress_image` (src/plugin.rs lines
199-214): explicit `output_path`, else the input path with the format
extension (default `webp`); an explicit `format` then overrides the
extension. -/
def image_call_output_path (args : Json) (input_path : String) : String :=
  let format_ext := image_call_format_ext args
  let output_path :=
    match (args.get "output_path").bind Json.asStr with
    | some p => p
    | none => with_extension input_path (format_ext.getD "webp")
  match format_ext with
  | some ext => with_extension output_path ext
  | none => output_path

/-- The resize derived from `max_width`/`max_height` in
`call_compress_image` (src/plugin.rs lines 216-224): Fit mode, with
`u32::MAX` standing in for an absent bound; `as u32` truncates. -/
def image_call_resize (args : Json) : Option ResizeOptions :=
  let max_width := ((args.get "max_width").bind Json.asNat).map (· % 4294967296)
  let max_height := ((args.get "max_height").bind Json.asNat).map (· % 4294967296)
  match max_width, max_height with
  | some w, some h => (ResizeOptions.new w h ResizeMode.Fit).toOption
  | some w, none => (ResizeOptions.new w 4294967295 ResizeMode.Fit).toOption
  | none, some h => (ResizeOptions.new 4294967295 h ResizeMode.Fit).toOption
  | none, none => none

/-- The `CompressOptions` built by `call_compress_image` (src/plugin.rs
lines 226-232): overwrite forced on, quality/lossless/resize from the
arguments, everything else defaulted. -/
def image_call_options (args : Json) : CompressOptions :=
  { CompressOptions.default with
      overwrite := true,
      quality := ((args.get "quality").bind Json.asNat).map (· % 256),
      lossless := ((args.get "lossless").bind Json.asBool).getD false,
      resize := image_call_resize args }

/-- The success payload of `call_compress_image` (src/plugin.rs lines
237-248). -/
def image_call_success (input_path final_output : String) (stats : CompressionStats) : Json :=
  let text := "Compressed " ++ input_path ++ " -> " ++ final_output ++ " ("
    ++ format_size stats.original_bytes ++ " -> " ++ format_size stats.compressed_bytes
    ++ ", saved " ++ format_percent stats.savings_percent ++ "%)"
  Json.obj [("content", Json.arr [Json.obj [("type", Json.str "text"), ("text", Json.str text)]])]

/-- `call_compress_image` (src/plugin.rs lines 186-252). -/
def call_compress_image (pipe : ImgPipeline) (id : Json) (args : Json) : Response :=
  match (args.get "input_path").bind Json.asStr with
  | none => Response.err id (-32602) "Missing required parameter: input_path"
  | some input_path =>
    let final_output := image_call_output_path args input_path
    match pipe input_path final_output (image_call_options args) with
    | .ok stats => Response.ok id (image_call_success input_path final_output stats)
    | .error e => Response.err id (-32000) ("Compression failed: " ++ e.message)

/-- The `CompressOptions` built by `call_compress_directory` (src/plugin.rs
lines 275-279): overwrite forced on, quality from the arguments. -/
def directory_call_options (args : Json) : CompressOptions :=
  { CompressOptions.default with
      overwrite := true,
      quality := ((args.get "quality").bind Json.asNat).map (· % 256) }

/-- The success payload of `call_compress_directory` (src/plugin.rs lines
290-301). -/
def directory_call_success (report : BatchReport) : Json :=
  let text := "Batch compression complete: " ++ toString report.compressed
    ++ " compressed, " ++ toString report.skipped ++ " skipped, "
    ++ toString report.failed ++ " failed (" ++ format_size report.total_original_bytes
    ++ " -> " ++ format_size report.total_compressed_bytes ++ ")"
  Json.obj [("content", Json.arr [Json.obj [("type", Json.str "text"), ("text", Json.str text)]])]

/-- The target format token of `call_compress_directory` (src/plugin.rs
lines 259-266): default `webp`, with `"jpeg"` mapped to `"jpg"`. -/
def directory_call_format (args : Json) : String :=
  let format_ext0 := ((args.get "format").bind Json.asStr).getD "webp"
  if format_ext0 = "jpeg" then "jpg" else format_ext0

/-- The output directory of `call_compress_directory` (src/plugin.rs lines
268-271): default is the input directory with a `_compressed` suffix. -/
def directory_call_output (args : Json) (input_dir : String) : String :=
  ((args.get "output_dir").bind Json.asStr).getD (input_dir ++ "_compressed")

/-- `call_compress_directory` (src/plugin.rs lines 254-305). -/
def call_compress_directory (pipe : DirPipeline) (id : Json) (args : Json) : Response :=
  match (args.get "input_dir").bind Json.asStr with
  | none => Response.err id (-32602) "Missing required parameter: input_dir"
  | some input_dir =>
    match pipe input_dir (directory_call_output args input_dir) (directory_call_format args)
        (directory_call_options args) with
    | .ok report => Response.ok id (directory_call_success report)
    | .error e => Response.err id (-32000) ("Batch compression failed: " ++ e.message)

/-- The tool name a `tools/call` dispatches on (src/plugin.rs lines
170-173). -/
def call_tool_name (params : Json) : String :=
  ((params.get "name").bind Json.asStr).getD ""

/-- The tool arguments of a `tools/call` (src/plugin.rs lines 174-177). -/
def call_args (params : Json) : Json :=
  (params.get "arguments").getD (Json.obj [])

/-- `handle_tool_call` (src/plugin.rs lines 169-184). -/
def handle_tool_call (pi : ImgPipeline) (pd : DirPipeline) (id : Json) (params : Json) :
    Response :=
  match call_tool_name params with
  | "compress_image" => call_compress_image pi id (call_args params)
  | "compress_directory" => call_compress_directory pd id (call_args params)
  | other => Response.err id (-32601) ("Unknown tool: " ++ other)

/-- The two tool descriptors returned by `tools/list` (src/plugin.rs lines
88-163), with the descriptive strings and schema annotations elided down
to the names, required lists and property names. -/
def tool_definitions : Json :=
  Json.arr
    [ Json.obj
        [ ("name", Json.str "compress_image"),
          ("inputSchema", Json.obj
            [ ("type", Json.str "object"),
              ("required", Json.arr [Json.str "input_path"]),
              ("properties", Json.obj
                [ ("input_path", Json.obj []), ("output_path", Json.obj []),
                  ("quality", Json.obj []), ("format", Json.obj []),
                  ("max_width", Json.obj []), ("max_height", Json.obj []),
                  ("lossless", Json.obj []) ]) ]) ],
      Json.obj
        [ ("name", Json.str "compress_directory"),
          ("inputSchema", Json.obj
            [ ("type", Json.str "object"),
              ("required", Json.arr [Json.str "input_dir"]),
              ("properties", Json.obj
                [ ("input_dir", Json.obj []), ("output_dir", Json.obj []),
                  ("quality", Json.obj []), ("format", Json.obj []) ]) ]) ] ]

/-- The `initialize` result (src/plugin.rs lines 60-67). -/
def initialize_result : Json :=
  Json.obj
    [ ("protocolVersion", Json.str "2024-11-05"),
      ("capabilities", Json.obj [("tools", Json.obj [])]),
      ("serverInfo", Json.obj
        [("name", Json.str "image-compressor"), ("version", Json.str "0.1.0")]) ]

/-- The method string of a request (src/plugin.rs lines 50-53). -/
def req_method (req : Json) : String :=
  ((req.get "method").bind Json.asStr).getD ""

/-- The params of a request (src/plugin.rs lines 54-57). -/
def req_params (req : Json) : Json :=
  (req.get "params").getD (Json.obj [])

/-- One iteration of the request loop in `main` (src/plugin.rs lines
43-81) for an already-parsed request: drop notifications (no id or null
id), otherwise dispatch on the method and answer. -/
def process_request (pi : ImgPipeline) (pd : DirPipeline) (req : Json) : Option Response :=
  match req.get "id" with
  | none => none
  | some id =>
    if id.isNull then none
    else some (match req_method req with
      | "initialize" => Response.ok id initialize_result
      | "ping" | "shutdown" => Response.ok id (Json.obj [])
      | "health/check" => Response.ok id (Json.obj [("ok", Json.bool true)])
      | "tools/list" => Response.ok id (Json.obj [("tools", tool_definitions)])
      | "tools/call" => handle_tool_call pi pd id (req_params req)
      | other => Response.err id (-32601) ("Method not found: " ++ other))

/-- Modelled from claim C3's words (the spec-side resolver to compare with
the code): trim surrounding whitespace, strip a SINGLE leading dot, fail
on an empty remainder with the distinct empty-extension error, lowercase
and map the recognized tokens, failing on any other token. -/
def resolve_claimed (s : String) : Except CompressError OutputFormat :=
  let t := trim_chars s.toList
  let cleaned := match t with
    | '.' :: rest => rest
    | _ => t
  if cleaned.isEmpty then .error .emptyExtension
  else
    match String.mk (cleaned.map Char.toLower) with
    | "jpg" | "jpeg" => .ok .Jpeg
    | "png" => .ok .Png
    | "webp" => .ok .WebP
    | "avif" => .ok .Avif
    | other => .error (.unsupportedFormat other)

/-- Modelled from the amended claim's words: identical to `resolve_claimed`
except that ALL leading dots are stripped. -/
def resolve_spec (s : String) : Except CompressError OutputFormat :=
  let cleaned := (trim_chars s.toList).dropWhile (fun c => c == '.')
  if cleaned.isEmpty then .error .emptyExtension
  else
    match String.mk (cleaned.map Char.toLower) with
    | "jpg" | "jpeg" => .ok .Jpeg
    | "png" => .ok .Png
    | "webp" => .ok .WebP
    | "avif" => .ok .Avif
    | other => .error (.unsupportedFormat other)

/-- C3 counterexample: the resolver does NOT strip only a single leading
dot.  On the input `"..png"` the claimed single-dot procedure is left with
the unrecognized token `".png"` and fails, while the code's resolver
(`trim_start_matches('.')` strips every leading dot) succeeds with PNG. -/
theorem from_extension_single_dot_cex :
    OutputFormat.from_extension "..png" = .ok .Png ∧
    resolve_claimed "..png" = .error (.unsupportedFormat ".png") ∧
    OutputFormat.from_extension "..png" ≠ resolve_claimed "..png" := by
  refine ⟨rfl, rfl, ?_⟩
  intro h
  simp [OutputFormat.from_extension, resolve_claimed, normalize_extension, trim_chars] at h

/-- C3 (amended): the Format Resolver trims surrounding whitespace, strips
ALL leading dots, and lowercases the remainder; it maps jpg/jpeg to JPEG,
png to PNG, webp to WebP, avif to AVIF, fails on any other non-empty
normalized token, and fails with the distinct empty-extension error when
the token is empty after normalization — i.e. it agrees with the
spec-side resolver `resolve_spec` on every input string. -/
theorem from_extension_resolver_spec (s : String) :
    OutputFormat.from_extension s = resolve_spec s := by
  unfold OutputFormat.from_extension resolve_spec normalize_extension
  cases h : ((trim_chars s.toList).dropWhile (fun c => c == '.')).isEmpty <;>
    simp only [String.toList] at h ⊢ <;> rw [h] <;> rfl

/-- C7: the savings percentage equals `(1 - compressed/original) * 100`
when `original > 0` and `0` when `original = 0`; it always lies in
`(-∞, 100]`, is `0` when the sizes are equal, and is `100` when the
compressed size is `0` with a positive original size. -/
theorem savings_percent_spec (o c : Nat) :
    savings_percent o c ≤ 100 ∧
    (o = 0 → savings_percent o c = 0) ∧
    (0 < o → savings_percent o c = (1 - (c : ℚ) / (o : ℚ)) * 100) ∧
    (c = o → savings_percent o c = 0) ∧
    (c = 0 → 0 < o → savings_percent o c = 100) := by
  unfold savings_percent
  rcases Nat.eq_zero_or_pos o with h | h
  · subst h
    simp
  · have ho : (o : ℚ) ≠ 0 := Nat.cast_ne_zero.mpr h.ne'
    have hnn : (0 : ℚ) ≤ (c : ℚ) / (o : ℚ) :=
      div_nonneg (Nat.cast_nonneg c) (Nat.cast_nonneg o)
    refine ⟨?_, ?_, ?_, ?_, ?_⟩
    · rw [if_pos h]
      nlinarith
    · intro h0
      omega
    · intro _
      rw [if_pos h]
    · intro hco
      subst hco
      rw [if_pos h, div_self ho]
      ring
    · intro hc _
      subst hc
      rw [if_pos h]
      norm_num

/-- C7 witness: concrete instances of the savings properties. -/
theorem savings_percent_spec_witness :
    savings_percent 4 1 = 75 ∧ savings_percent 0 7 = 0 ∧
    savings_percent 5 5 = 0 ∧ savings_percent 8 0 = 100 := by
  refine ⟨?_, (savings_percent_spec 0 7).2.1 rfl, (savings_percent_spec 5 5).2.2.2.1 rfl,
    (savings_percent_spec 8 0).2.2.2.2 rfl (by norm_num)⟩
  rw [(savings_percent_spec 4 1).2.2.1 (by norm_num)]
  norm_num

/-- A concrete codec instantiation for evaluating the model on test
inputs: sniffing always reports PNG, decoding always fails, oxipng is the
identity, the infallible WebP encoder returns an empty buffer. -/
def testCodecs : Codecs where
  guess_format := fun _ => some .png
  decode_with_format := fun _ _ => none
  decode_auto := fun _ => none
  resize_fit := fun i _ _ => i
  resize_exact := fun i _ _ => i
  encode_jpeg := fun _ _ _ => none
  encode_png_baseline := fun _ => none
  oxipng := fun b _ _ => some b
  encode_webp := fun _ _ _ => []
  encode_avif := fun _ _ _ => none

/-- Test fixture: one regular file `in/a.png`. -/
def inFile : Path := { dirs := ["in"], base := "a", ext := some "png" }

/-- Test fixture: a filesystem holding only `in/a.png`. -/
def fsOneFile : FS := { files := [(inFile, [1, 2, 3])], dirs := [[], ["in"]] }

/-- Test fixture: a filesystem with an empty directory `in`. -/
def fsEmptyDir : FS := { files := [], dirs := [[], ["in"]] }

/-- The decode step always reports exactly one decode event. -/
theorem decode_and_resize_events (C : Codecs) (bytes : Bytes) (options : CompressOptions) :
    (decode_and_resize C bytes options).2 = [Event.decode bytes] := by
  unfold decode_and_resize
  dsimp only
  split
  · rfl
  · split <;> rfl

/-- Creating a directory marks that directory as existing. -/
theorem isDir_createDirAll_self (fs : FS) (d : DirPath) :
    (fs.createDirAll d).isDir d = true := by
  simp only [FS.createDirAll, FS.isDir, DirPath.ancestors, decide_eq_true_eq,
    List.mem_append, List.mem_map, List.mem_range]
  exact Or.inr ⟨d.length, by omega, List.take_length d⟩

/-- Writing a file leaves the directory set unchanged. -/
theorem isDir_writeFile (fs : FS) (p : Path) (b : Bytes) (d : DirPath) :
    (fs.writeFile p b).isDir d = fs.isDir d := rfl

/-- C2: the dispatch rule of the compression step.  When the resolved
target format is PNG, no resize is requested and the input sniffs as PNG,
the raw input bytes go directly to the PNG optimizer — the result is
oxipng applied to the input bytes and the only codec event is that
optimize, with no decode.  In every other case (non-PNG target, resize
requested, or input not sniffing as PNG) the first codec event is a decode
of the input, i.e. the input is decoded (and resized via the decode step
when requested) before the format-specific encoder runs. -/
theorem compress_bytes_dispatch (C : Codecs) (bytes : Bytes) (format : OutputFormat)
    (options : CompressOptions) :
    (format = OutputFormat.Png → options.resize = none → sniff_is_png C bytes = true →
      compress_bytes C bytes format options =
        (run_oxipng C bytes options, [Event.optimizePng bytes])) ∧
    ((format ≠ OutputFormat.Png ∨ options.resize ≠ none ∨ sniff_is_png C bytes = false) →
      (compress_bytes C bytes format options).2.head? = some (Event.decode bytes)) := by
  constructor
  · intro hf hr hs
    unfold compress_bytes
    rw [if_pos ⟨hf, hr⟩, if_pos hs]
    rfl
  · intro h
    unfold compress_bytes
    by_cases hc : format = OutputFormat.Png ∧ options.resize = none
    · have hs : sniff_is_png C bytes = false := by
        rcases h with h | h | h
        · exact absurd hc.1 h
        · exact absurd hc.2 h
        · exact h
      rw [if_pos hc, if_neg (by simp [hs])]
      split
      · rename_i e evs heq
        have hevs : evs = [Event.decode bytes] := by
          have := decode_and_resize_events C bytes options
          rw [heq] at this
          exact this
        subst hevs
        rfl
      · rename_i image evs heq
        have hevs : evs = [Event.decode bytes] := by
          have := decode_and_resize_events C bytes options
          rw [heq] at this
          exact this
        subst hevs
        rfl
    · rw [if_neg hc]
      split
      · rename_i e evs heq
        have hevs : evs = [Event.decode bytes] := by
          have := decode_and_resize_events C bytes options
          rw [heq] at this
          exact this
        subst hevs
        rfl
      · rename_i image evs heq
        have hevs : evs = [Event.decode bytes] := by
          have := decode_and_resize_events C bytes options
          rw [heq] at this
          exact this
        subst hevs
        rfl

/-- C2 witness: with the test codecs (which sniff everything as PNG), a
PNG target without resize takes the fast path, and a WebP target emits a
decode event first. -/
theorem compress_bytes_dispatch_witness :
    compress_bytes testCodecs [1, 2, 3] OutputFormat.Png CompressOptions.default =
      (run_oxipng testCodecs [1, 2, 3] CompressOptions.default,
        [Event.optimizePng [1, 2, 3]]) ∧
    (compress_bytes testCodecs [1, 2, 3] OutputFormat.WebP CompressOptions.default).2.head? =
      some (Event.decode [1, 2, 3]) :=
  ⟨(compress_bytes_dispatch testCodecs [1, 2, 3] OutputFormat.Png
      CompressOptions.default).1 rfl rfl rfl,
   (compress_bytes_dispatch testCodecs [1, 2, 3] OutputFormat.WebP
      CompressOptions.default).2 (Or.inl (by decide))⟩

/-- C5: `compress_image_file` checks its preconditions before any decode
or encode work: a missing input fails with the input-not-found error, an
existing output without overwrite fails with the output-exists error (in
both cases the filesystem is untouched and no codec event occurs), and
once both checks pass the output's parent directory exists in the
resulting filesystem, whatever happens later in the pipeline. -/
theorem compress_image_file_preconditions (C : Codecs) (fs : FS) (input output : Path)
    (options : CompressOptions) :
    (fs.isFile input = false →
      compress_image_file C fs input output options =
        (.error (.inputNotFound input), fs, [])) ∧
    (fs.isFile input = true → fs.pathExists output = true → options.overwrite = false →
      compress_image_file C fs input output options =
        (.error (.outputExists output), fs, [])) ∧
    (fs.isFile input = true → (fs.pathExists output = false ∨ options.overwrite = true) →
      (compress_image_file C fs input output options).2.1.isDir output.parent = true) := by
  refine ⟨?_, ?_, ?_⟩
  · intro h
    unfold compress_image_file validate_input_and_output
    rw [if_pos (by simp [h])]
  · intro h1 h2 h3
    unfold compress_image_file validate_input_and_output
    rw [if_neg (by simp [h1]), if_pos (by simp [h2, h3])]
  · intro h1 h2
    have hval : validate_input_and_output fs input output options =
        .ok (fs.createDirAll output.parent) := by
      unfold validate_input_and_output
      rcases h2 with h2 | h2
      · rw [if_neg (by simp [h1]), if_neg (by simp [h2])]
      · rw [if_neg (by simp [h1]), if_neg (by simp [h2])]
    unfold compress_image_file
    rw [hval]
    dsimp only
    split
    · exact isDir_createDirAll_self fs output.parent
    · split
      · exact isDir_createDirAll_self fs output.parent
      · split
        · exact isDir_createDirAll_self fs output.parent
        · split
          · exact isDir_createDirAll_self fs output.parent
          · rw [isDir_writeFile]
            exact isDir_createDirAll_self fs output.parent

/-- C5 witness: a missing input file is rejected up front. -/
theorem compress_image_file_preconditions_witness :
    compress_image_file testCodecs fsEmptyDir inFile inFile CompressOptions.default =
      (.error (.inputNotFound inFile), fsEmptyDir, []) :=
  (compress_image_file_preconditions testCodecs fsEmptyDir inFile inFile
    CompressOptions.default).1 rfl

/-- `compress_png` never reports a write event. -/
theorem compress_png_no_write (C : Codecs) (bytes : Bytes) (image : Option Image)
    (options : CompressOptions) (p : Path) (b : Bytes) :
    Event.write p b ∉ (compress_png C bytes image options).2 := by
  unfold compress_png
  rcases image with _ | img
  · simp
  · rcases h : C.encode_png_baseline img with _ | buf <;> simp [h]

/-- The JPEG encoder step reports exactly its encode event. -/
theorem compress_jpeg_events (C : Codecs) (image : Image) (options : CompressOptions) :
    (compress_jpeg C image options).2 = [Event.encode .Jpeg] := by
  unfold compress_jpeg
  split <;> rfl

/-- The AVIF encoder step reports exactly its encode event. -/
theorem compress_avif_events (C : Codecs) (image : Image) (options : CompressOptions) :
    (compress_avif C image options).2 = [Event.encode .Avif] := by
  unfold compress_avif
  dsimp only
  split <;> rfl

/-- The compression step never reports a write event: only
`compress_image_file` itself writes, after the full buffer exists. -/
theorem compress_bytes_no_write (C : Codecs) (bytes : Bytes) (format : OutputFormat)
    (options : CompressOptions) (p : Path) (b : Bytes) :
    Event.write p b ∉ (compress_bytes C bytes format options).2 := by
  unfold compress_bytes
  split
  · split
    · exact compress_png_no_write C bytes none options p b
    · split
      · rename_i e evs heq
        have hevs : evs = [Event.decode bytes] := by
          have := decode_and_resize_events C bytes options
          rw [heq] at this
          exact this
        subst hevs
        simp
      · rename_i image evs heq
        have hevs : evs = [Event.decode bytes] := by
          have := decode_and_resize_events C bytes options
          rw [heq] at this
          exact this
        subst hevs
        simp only [List.mem_append]
        rintro (hmem | hmem)
        · simp at hmem
        · exact compress_png_no_write C [] (some image) options p b hmem
  · split
    · rename_i e evs heq
      have hevs : evs = [Event.decode bytes] := by
        have := decode_and_resize_events C bytes options
        rw [heq] at this
        exact this
      subst hevs
      simp
    · rename_i image evs heq
      have hevs : evs = [Event.decode bytes] := by
        have := decode_and_resize_events C bytes options
        rw [heq] at this
        exact this
      subst hevs
      simp only [List.mem_append]
      rintro (hmem | hmem)
      · simp at hmem
      · cases format
        · rw [compress_jpeg_events] at hmem
          simp at hmem
        · exact compress_png_no_write C [] (some image) options p b hmem
        · simp [compress_webp] at hmem
        · rw [compress_avif_events] at hmem
          simp at hmem

/-- C6: the output write happens only after the complete compressed
buffer exists — on any failing run of `compress_image_file` the
filesystem's files are exactly the input files (nothing, partial or
otherwise, was written) and no write event was reported. -/
theorem compress_image_file_no_partial_write (C : Codecs) (fs : FS) (input output : Path)
    (options : CompressOptions) (e : CompressError) (fs2 : FS) (evs : List Event)
    (h : compress_image_file C fs input output options = (.error e, fs2, evs)) :
    fs2.files = fs.files ∧ ∀ p b, Event.write p b ∉ evs := by
  unfold compress_image_file at h
  split at h
  · simp only [Prod.mk.injEq] at h
    obtain ⟨-, hfs, hevs⟩ := h
    subst hfs
    subst hevs
    exact ⟨rfl, by simp⟩
  · rename_i fs1 hval
    have hfiles : fs1.files = fs.files := by
      unfold validate_input_and_output at hval
      split at hval
      · cases hval
      · split at hval
        · cases hval
        · cases hval
          rfl
    split at h
    · simp only [Prod.mk.injEq] at h
      obtain ⟨-, hfs, hevs⟩ := h
      subst hfs
      subst hevs
      exact ⟨hfiles, by simp⟩
    · split at h
      · simp only [Prod.mk.injEq] at h
        obtain ⟨-, hfs, hevs⟩ := h
        subst hfs
        subst hevs
        exact ⟨hfiles, by simp⟩
      · split at h
        · simp only [Prod.mk.injEq] at h
          obtain ⟨-, hfs, hevs⟩ := h
          subst hfs
          subst hevs
          exact ⟨hfiles, by simp⟩
        · rename_i format hfmt
          dsimp only at h
          split at h
          · rename_i e0 herr
            simp only [Prod.mk.injEq] at h
            obtain ⟨-, hfs, hevs⟩ := h
            subst hfs
            subst hevs
            exact ⟨hfiles, fun p b => compress_bytes_no_write C _ format options p b⟩
          · simp at h

/-- C6 witness: a failing run (missing input) leaves the files untouched
and reports no write. -/
theorem compress_image_file_no_partial_write_witness :
    fsEmptyDir.files = fsEmptyDir.files ∧
      ∀ p b, Event.write p b ∉ ([] : List Event) :=
  compress_image_file_no_partial_write testCodecs fsEmptyDir inFile inFile
    CompressOptions.default (.inputNotFound inFile) fsEmptyDir [] rfl

/-- The per-file loop body settles each file with exactly one outcome:
the outcome counters grow by exactly one per processed file. -/
theorem process_file_sum (C : Codecs) (din dout : DirPath) (ext : String)
    (options : CompressOptions) (acc : BatchReport × FS) (p : Path) :
    (process_file C din dout ext options acc p).1.compressed +
      (process_file C din dout ext options acc p).1.skipped +
      (process_file C din dout ext options acc p).1.failed =
      acc.1.compressed + acc.1.skipped + acc.1.failed + 1 := by
  unfold process_file
  dsimp only
  split
  · dsimp only
    omega
  · split
    · dsimp only
      omega
    · split
      · dsimp only
        omega
      · dsimp only
        omega

/-- Folding the loop over any file list grows the counters by its length. -/
theorem foldl_process_file_sum (C : Codecs) (din dout : DirPath) (ext : String)
    (options : CompressOptions) (files : List Path) (acc : BatchReport × FS) :
    (files.foldl (process_file C din dout ext options) acc).1.compressed +
      (files.foldl (process_file C din dout ext options) acc).1.skipped +
      (files.foldl (process_file C din dout ext options) acc).1.failed =
      acc.1.compressed + acc.1.skipped + acc.1.failed + files.length := by
  induction files generalizing acc with
  | nil => simp
  | cons f rest ih =>
    rw [List.foldl_cons, ih]
    have := process_file_sum C din dout ext options acc f
    simp only [List.length_cons]
    omega

/-- C4: in a successful `compress_directory` run each discovered file
contributes exactly one of the three outcomes, a per-file failure never
aborts the remaining files, and so compressed + skipped + failed equals
the number of discovered files. -/
theorem compress_directory_outcome_sum (C : Codecs) (fs : FS)
    (input_dir output_dir : DirPath) (to_extension : String)
    (options : CompressOptions) (recursive : Bool) (report : BatchReport) (fs2 : FS)
    (h : compress_directory C fs input_dir output_dir to_extension options recursive =
      (.ok report, fs2)) :
    report.compressed + report.skipped + report.failed =
      (collect_input_files (fs.createDirAll output_dir) input_dir recursive).length := by
  unfold compress_directory at h
  split at h
  · simp at h
  · dsimp only at h
    split at h
    · simp at h
    · rename_i t ht
      simp only [Prod.mk.injEq, Except.ok.injEq] at h
      obtain ⟨hr, -⟩ := h
      subst hr
      have := foldl_process_file_sum C input_dir output_dir t options
        (collect_input_files (fs.createDirAll output_dir) input_dir recursive)
        (BatchReport.default, fs.createDirAll output_dir)
      simpa [BatchReport.default] using this

/-- C4 witness: a batch over an empty directory yields 0 + 0 + 0 = 0. -/
theorem compress_directory_outcome_sum_witness :
    BatchReport.default.compressed + BatchReport.default.skipped +
        BatchReport.default.failed =
      (collect_input_files (fsEmptyDir.createDirAll ["out"]) ["in"] false).length :=
  compress_directory_outcome_sum testCodecs fsEmptyDir ["in"] ["out"] "webp"
    CompressOptions.default false BatchReport.default
    (fsEmptyDir.createDirAll ["out"]) rfl

/-- C1 counterexample: the batch target extension is NOT validated against
the recognized formats up front.  The token `"bmp"` does not resolve to
any recognized format, yet `compress_directory` does not return an error:
it processes the one discovered file and counts a per-file failure. -/
theorem compress_directory_unsupported_token_cex :
    OutputFormat.from_extension "bmp" = .error (.unsupportedFormat "bmp") ∧
    (compress_directory testCodecs fsOneFile ["in"] ["out"] "bmp"
        CompressOptions.default false).1 =
      .ok { compressed := 0, skipped := 0, failed := 1,
            total_original_bytes := 0, total_compressed_bytes := 0 } :=
  ⟨rfl, rfl⟩

/-- C1 (amended): `compress_directory` only normalizes the target
extension up front — a target that fails normalization (empty after
trimming and dot-stripping) aborts the batch with that error before any
file is processed, while any target that normalizes (recognized or not)
lets the batch run to a report. -/
theorem compress_directory_target_ext_validation (C : Codecs) (fs : FS)
    (input_dir output_dir : DirPath) (to_extension : String)
    (options : CompressOptions) (recursive : Bool)
    (hdir : fs.isDir input_dir = true) :
    (∀ e, normalize_extension to_extension = .error e →
      compress_directory C fs input_dir output_dir to_extension options recursive =
        (.error e, fs.createDirAll output_dir)) ∧
    (∀ t, normalize_extension to_extension = .ok t →
      (compress_directory C fs input_dir output_dir to_extension options recursive).1 =
        .ok ((collect_input_files (fs.createDirAll output_dir) input_dir recursive).foldl
          (process_file C input_dir output_dir t options)
          (BatchReport.default, fs.createDirAll output_dir)).1) := by
  constructor
  · intro e he
    unfold compress_directory
    rw [if_neg (by simp [hdir])]
    simp only [he]
  · intro t ht
    unfold compress_directory
    rw [if_neg (by simp [hdir])]
    simp only [ht]

/-- C1 witness: an all-dots target extension normalizes to empty and
aborts the batch up front with the empty-extension error. -/
theorem compress_directory_target_ext_validation_witness :
    compress_directory testCodecs fsEmptyDir ["in"] ["out"] " . "
        CompressOptions.default false =
      (.error .emptyExtension, fsEmptyDir.createDirAll ["out"]) :=
  (compress_directory_target_ext_validation testCodecs fsEmptyDir ["in"] ["out"] " . "
    CompressOptions.default false rfl).1 .emptyExtension rfl

/-- Creating one directory keeps every existing directory. -/
theorem isDir_createDirAll_mono (fs : FS) (d e : DirPath) (h : fs.isDir d = true) :
    (fs.createDirAll e).isDir d = true := by
  simp only [FS.createDirAll, FS.isDir, decide_eq_true_eq, List.mem_append] at *
  exact Or.inl h

/-- `fs::create_dir_all` does not touch the regular files. -/
theorem pathExists_createDirAll (fs : FS) (d : DirPath) (p : Path) :
    (fs.createDirAll d).pathExists p = fs.pathExists p := rfl

/-- The single-file pipeline never removes a directory. -/
theorem compress_image_file_isDir_mono (C : Codecs) (fs : FS) (input output : Path)
    (options : CompressOptions) (d : DirPath) (h : fs.isDir d = true) :
    ((compress_image_file C fs input output options).2.1).isDir d = true := by
  unfold compress_image_file
  split
  · exact h
  · rename_i fs1 hval
    have hfs1 : fs1.isDir d = true := by
      unfold validate_input_and_output at hval
      split at hval
      · cases hval
      · split at hval
        · cases hval
        · cases hval
          exact isDir_createDirAll_mono fs d output.parent h
    split
    · exact hfs1
    · split
      · exact hfs1
      · split
        · exact hfs1
        · dsimp only
          split
          · exact hfs1
          · rw [isDir_writeFile]
            exact hfs1

/-- C10: for every discovered file whose prefix stripping succeeds, the
per-file loop creates the parent directory of the mapped destination
before the skip/overwrite check and before the single-file pipeline runs:
after the iteration the destination's parent directory exists whatever
the outcome, and in particular it exists even when the file is counted
as skipped because the destination pre-exists without overwrite. -/
theorem process_file_creates_parent_dirs (C : Codecs) (din dout : DirPath)
    (ext : String) (options : CompressOptions) (acc : BatchReport × FS) (p rel : Path)
    (h : Path.strip_prefix_dir din p = some rel) :
    ((process_file C din dout ext options acc p).2).isDir
        ((Path.join dout rel).set_extension ext).parent = true ∧
    (acc.2.pathExists ((Path.join dout rel).set_extension ext) = true →
      options.overwrite = false →
      (process_file C din dout ext options acc p).1 =
        { acc.1 with skipped := acc.1.skipped + 1 }) := by
  unfold process_file
  dsimp only
  rw [h]
  dsimp only
  constructor
  · split
    · exact isDir_createDirAll_self acc.2 ((Path.join dout rel).set_extension ext).parent
    · split
      · rename_i stats fs2 evs heq
        have := compress_image_file_isDir_mono C
          (acc.2.createDirAll ((Path.join dout rel).set_extension ext).parent) p
          ((Path.join dout rel).set_extension ext) options
          ((Path.join dout rel).set_extension ext).parent
          (isDir_createDirAll_self acc.2 ((Path.join dout rel).set_extension ext).parent)
        rw [heq] at this
        exact this
      · rename_i e fs2 evs heq
        have := compress_image_file_isDir_mono C
          (acc.2.createDirAll ((Path.join dout rel).set_extension ext).parent) p
          ((Path.join dout rel).set_extension ext) options
          ((Path.join dout rel).set_extension ext).parent
          (isDir_createDirAll_self acc.2 ((Path.join dout rel).set_extension ext).parent)
        rw [heq] at this
        exact this
  · intro hex how
    rw [if_pos ⟨by rw [pathExists_createDirAll]; exact hex, by simp [how]⟩]

/-- Test fixture: the mapped destination `out/a.webp`. -/
def outFileW : Path := { dirs := ["out"], base := "a", ext := some "webp" }

/-- Test fixture: a filesystem where the mapped destination pre-exists. -/
def fsExistingTarget : FS := { files := [(outFileW, [])], dirs := [[], ["in"]] }

/-- C10 witness: a file whose destination pre-exists (no overwrite) is
skipped, and its destination's parent directory exists afterwards. -/
theorem process_file_creates_parent_dirs_witness :
    ((process_file testCodecs ["in"] ["out"] "webp" CompressOptions.default
        (BatchReport.default, fsExistingTarget) inFile).2).isDir
        ((Path.join ["out"] { dirs := [], base := "a", ext := some "png" }).set_extension
          "webp").parent = true ∧
    (process_file testCodecs ["in"] ["out"] "webp" CompressOptions.default
        (BatchReport.default, fsExistingTarget) inFile).1 =
      { BatchReport.default with skipped := BatchReport.default.skipped + 1 } := by
  have h := process_file_creates_parent_dirs testCodecs ["in"] ["out"] "webp"
    CompressOptions.default (BatchReport.default, fsExistingTarget) inFile
    { dirs := [], base := "a", ext := some "png" } rfl
  exact ⟨h.1, h.2 rfl rfl⟩

/-- A decode failure is the only error of the decode step. -/
theorem decode_and_resize_error_shape (C : Codecs) (bytes : Bytes)
    (options : CompressOptions) (e : CompressError) (evs : List Event)
    (h : decode_and_resize C bytes options = (.error e, evs)) :
    e = .decodeFailed := by
  unfold decode_and_resize at h
  dsimp only at h
  split at h
  · cases h
    rfl
  · split at h <;> cases h

/-- The oxipng step errors only with the optimization failure. -/
theorem run_oxipng_error_shape (C : Codecs) (b : Bytes) (options : CompressOptions)
    (e : CompressError) (h : run_oxipng C b options = .error e) :
    e = .pngOptimizeFailed := by
  unfold run_oxipng at h
  dsimp only at h
  split at h
  · cases h
  · cases h
    rfl

/-- The PNG path errors only with encode or optimization failures. -/
theorem compress_png_error_shape (C : Codecs) (bytes : Bytes) (image : Option Image)
    (options : CompressOptions) (e : CompressError)
    (h : (compress_png C bytes image options).1 = .error e) :
    e = .encodeFailed ∨ e = .pngOptimizeFailed := by
  unfold compress_png at h
  rcases image with _ | img
  · exact Or.inr (run_oxipng_error_shape C bytes options e h)
  · dsimp only at h
    split at h
    · cases h
      exact Or.inl rfl
    · exact Or.inr (run_oxipng_error_shape C _ options e h)

/-- The JPEG encoder step errors only with an encode failure. -/
theorem compress_jpeg_error_shape (C : Codecs) (img : Image) (options : CompressOptions)
    (e : CompressError) (h : (compress_jpeg C img options).1 = .error e) :
    e = .encodeFailed := by
  unfold compress_jpeg at h
  split at h
  · cases h
  · cases h
    rfl

/-- The AVIF encoder step errors only with an encode failure. -/
theorem compress_avif_error_shape (C : Codecs) (img : Image) (options : CompressOptions)
    (e : CompressError) (h : (compress_avif C img options).1 = .error e) :
    e = .encodeFailed := by
  unfold compress_avif at h
  dsimp only at h
  split at h
  · cases h
  · cases h
    rfl

/-- Every error of the compression step is a decode, encode or
optimization failure. -/
theorem compress_bytes_error_shape (C : Codecs) (bytes : Bytes) (format : OutputFormat)
    (options : CompressOptions) (e : CompressError)
    (h : (compress_bytes C bytes format options).1 = .error e) :
    e = .decodeFailed ∨ e = .encodeFailed ∨ e = .pngOptimizeFailed := by
  unfold compress_bytes at h
  split at h
  · split at h
    · exact Or.inr (compress_png_error_shape C bytes none options e h)
    · split at h
      · rename_i e0 evs heq
        dsimp only at h
        cases h
        exact Or.inl (decode_and_resize_error_shape C bytes options _ _ heq)
      · rename_i image evs heq
        dsimp only at h
        exact Or.inr (compress_png_error_shape C [] (some image) options e h)
  · split at h
    · rename_i e0 evs heq
      dsimp only at h
      cases h
      exact Or.inl (decode_and_resize_error_shape C bytes options _ _ heq)
    · rename_i image evs heq
      dsimp only at h
      cases format
      · exact Or.inr (Or.inl (compress_jpeg_error_shape C image options e h))
      · exact Or.inr (compress_png_error_shape C [] (some image) options e h)
      · cases h
      · exact Or.inr (Or.inl (compress_avif_error_shape C image options e h))

/-- The only errors of the format resolver are the two token errors. -/
theorem from_extension_error_shape (ext : String) (e : CompressError)
    (h : OutputFormat.from_extension ext = .error e) :
    e = .emptyExtension ∨ ∃ t, e = .unsupportedFormat t := by
  unfold OutputFormat.from_extension normalize_extension at h
  dsimp only at h
  split at h
  · rename_i e1 heq
    cases h
    split at heq
    · cases heq
      exact Or.inl rfl
    · cases heq
  · rename_i s1 heq
    split at h
    · exact absurd h (by simp)
    · exact absurd h (by simp)
    · exact absurd h (by simp)
    · exact absurd h (by simp)
    · exact absurd h (by simp)
    · cases h
      exact Or.inr ⟨_, rfl⟩

/-- When overwriting is allowed, the single-file pipeline can never fail
with the output-exists error: that error arises only from the
default-safe existence check. -/
theorem compress_image_file_no_outputExists (C : Codecs) (fs : FS) (input output : Path)
    (options : CompressOptions) (hov : options.overwrite = true) (p : Path)
    (res : Except CompressError CompressionStats) (fs2 : FS) (evs : List Event)
    (h : compress_image_file C fs input output options = (res, fs2, evs)) :
    res ≠ .error (.outputExists p) := by
  intro hres
  subst hres
  unfold compress_image_file at h
  split at h
  · rename_i e0 hval
    unfold validate_input_and_output at hval
    split at hval
    · cases hval
      simp only [Prod.mk.injEq] at h
      exact absurd h.1 (by simp)
    · split at hval
      · rename_i hcond
        exact hcond.2 hov
      · cases hval
  · rename_i fs1 hval
    split at h
    · simp only [Prod.mk.injEq] at h
      exact absurd h.1 (by simp)
    · split at h
      · simp only [Prod.mk.injEq] at h
        exact absurd h.1 (by simp)
      · split at h
        · rename_i e1 hext
          simp only [Prod.mk.injEq] at h
          rcases from_extension_error_shape _ e1 hext with he | ⟨t, he⟩ <;>
            (subst he; exact absurd h.1 (by simp))
        · dsimp only at h
          split at h
          · rename_i e1 herr
            simp only [Prod.mk.injEq] at h
            have := compress_bytes_error_shape C _ _ options e1 herr
            rcases this with he | he | he <;> (subst he; exact absurd h.1 (by simp))
          · simp only [Prod.mk.injEq] at h
            exact absurd h.1 (by simp)

/-- C9: both bridge tools build their `CompressOptions` with overwrite
forced on, whatever the request arguments; and with overwrite on, the
single-file pipeline's output-exists precondition failure can never
occur — so the bridge silently replaces existing outputs, unlike the
default-safe CLI behavior. -/
theorem bridge_forces_overwrite :
    (∀ args, (image_call_options args).overwrite = true) ∧
    (∀ args, (directory_call_options args).overwrite = true) ∧
    (∀ (C : Codecs) (fs : FS) (input output : Path) (options : CompressOptions)
      (p : Path), options.overwrite = true →
      (compress_image_file C fs input output options).1 ≠
        .error (.outputExists p)) := by
  refine ⟨fun args => rfl, fun args => rfl, ?_⟩
  intro C fs input output options p hov
  exact compress_image_file_no_outputExists C fs input output options hov p _ _ _ rfl

/-- C9 witness: with empty arguments the bridge options still overwrite,
and a pipeline run with overwrite on does not fail with output-exists
even though the output path is present. -/
theorem bridge_forces_overwrite_witness :
    (image_call_options (Json.obj [])).overwrite = true ∧
    (compress_image_file testCodecs fsOneFile inFile outFileW
        { CompressOptions.default with overwrite := true }).1 ≠
      .error (.outputExists outFileW) :=
  ⟨bridge_forces_overwrite.1 (Json.obj []),
   bridge_forces_overwrite.2.2 testCodecs fsOneFile inFile outFileW
     { CompressOptions.default with overwrite := true } outFileW rfl⟩

/-- C8: the bridge's response policy for requests carrying an id — an
unrecognized method answers with code -32601; a `tools/call` of
`compress_image` without a string `input_path` (or of `compress_directory`
without a string `input_dir`) answers with code -32602; a pipeline failure
of either tool answers with code -32000 carrying the underlying message;
and a request without an id (or with a null id) gets no response at all. -/
theorem bridge_error_codes (pi : ImgPipeline) (pd : DirPipeline) (req : Json) :
    (req.get "id" = none → process_request pi pd req = none) ∧
    (∀ i, req.get "id" = some i → i.isNull = true → process_request pi pd req = none) ∧
    (∀ i, req.get "id" = some i → i.isNull = false →
      req_method req ∉ ["initialize", "ping", "shutdown", "health/check",
        "tools/list", "tools/call"] →
      process_request pi pd req =
        some (.err i (-32601) ("Method not found: " ++ req_method req))) ∧
    (∀ i, req.get "id" = some i → i.isNull = false → req_method req = "tools/call" →
      call_tool_name (req_params req) = "compress_image" →
      ((call_args (req_params req)).get "input_path").bind Json.asStr = none →
      process_request pi pd req =
        some (.err i (-32602) "Missing required parameter: input_path")) ∧
    (∀ i, req.get "id" = some i → i.isNull = false → req_method req = "tools/call" →
      call_tool_name (req_params req) = "compress_directory" →
      ((call_args (req_params req)).get "input_dir").bind Json.asStr = none →
      process_request pi pd req =
        some (.err i (-32602) "Missing required parameter: input_dir")) ∧
    (∀ i ip e, req.get "id" = some i → i.isNull = false → req_method req = "tools/call" →
      call_tool_name (req_params req) = "compress_image" →
      ((call_args (req_params req)).get "input_path").bind Json.asStr = some ip →
      pi ip (image_call_output_path (call_args (req_params req)) ip)
          (image_call_options (call_args (req_params req))) = .error e →
      process_request pi pd req =
        some (.err i (-32000) ("Compression failed: " ++ e.message))) ∧
    (∀ i idir e, req.get "id" = some i → i.isNull = false → req_method req = "tools/call" →
      call_tool_name (req_params req) = "compress_directory" →
      ((call_args (req_params req)).get "input_dir").bind Json.asStr = some idir →
      pd idir (directory_call_output (call_args (req_params req)) idir)
          (directory_call_format (call_args (req_params req)))
          (directory_call_options (call_args (req_params req))) = .error e →
      process_request pi pd req =
        some (.err i (-32000) ("Batch compression failed: " ++ e.message))) := by
  refine ⟨?_, ?_, ?_, ?_, ?_, ?_, ?_⟩
  · intro h
    unfold process_request
    rw [h]
  · intro i h1 h2
    unfold process_request
    rw [h1]
    try dsimp only
    rw [if_pos h2]
  · intro i h1 h2 hm
    unfold process_request
    rw [h1]
    try dsimp only
    rw [if_neg (by simp [h2])]
    simp only [List.mem_cons, List.not_mem_nil, or_false, not_or] at hm
    obtain ⟨m1, m2, m3, m4, m5, m6⟩ := hm
    split
    · rename_i hx
      exact absurd hx m1
    · rename_i hx
      exact absurd hx m2
    · rename_i hx
      exact absurd hx m3
    · rename_i hx
      exact absurd hx m4
    · rename_i hx
      exact absurd hx m5
    · rename_i hx
      exact absurd hx m6
    · rfl
  · intro i h1 h2 hmm htool hip
    unfold process_request
    rw [h1]
    try dsimp only
    rw [if_neg (by simp [h2]), hmm]
    try dsimp only
    unfold handle_tool_call
    rw [htool]
    try dsimp only
    unfold call_compress_image
    rw [hip]
    rfl
  · intro i h1 h2 hmm htool hid
    unfold process_request
    rw [h1]
    try dsimp only
    rw [if_neg (by simp [h2]), hmm]
    try dsimp only
    unfold handle_tool_call
    rw [htool]
    try dsimp only
    unfold call_compress_directory
    rw [hid]
    rfl
  · intro i ip e h1 h2 hmm htool hip hpipe
    unfold process_request
    rw [h1]
    try dsimp only
    rw [if_neg (by simp [h2]), hmm]
    try dsimp only
    unfold handle_tool_call
    rw [htool]
    try dsimp only
    unfold call_compress_image
    rw [hip]
    try dsimp only
    rw [hpipe]
    rfl
  · intro i idir e h1 h2 hmm htool hid hpipe
    unfold process_request
    rw [h1]
    try dsimp only
    rw [if_neg (by simp [h2]), hmm]
    try dsimp only
    unfold handle_tool_call
    rw [htool]
    try dsimp only
    unfold call_compress_directory
    rw [hid]
    try dsimp only
    rw [hpipe]
    rfl

/-- Test fixture: a pipeline stub that always fails to decode. -/
def pi0 : ImgPipeline := fun _ _ _ => .error .decodeFailed

/-- Test fixture: a batch pipeline stub that always rejects the root. -/
def pd0 : DirPipeline := fun _ _ _ _ => .error .inputDirNotFound

/-- Test fixture: a request with an id and an unrecognized method. -/
def reqUnknown : Json :=
  Json.obj [("id", Json.num 1), ("method", Json.str "frobnicate")]

/-- Test fixture: a `tools/call` of `compress_image` with an input path. -/
def reqCall : Json :=
  Json.obj
    [ ("id", Json.num 2), ("method", Json.str "tools/call"),
      ("params", Json.obj
        [ ("name", Json.str "compress_image"),
          ("arguments", Json.obj [("input_path", Json.str "a.png")]) ]) ]

/-- C8 witness: a request without an id gets no response; an unrecognized
method gets -32601; a failing `compress_image` call gets -32000 with the
underlying message. -/
theorem bridge_error_codes_witness :
    process_request pi0 pd0 (Json.obj []) = none ∧
    process_request pi0 pd0 reqUnknown =
      some (.err (Json.num 1) (-32601) "Method not found: frobnicate") ∧
    process_request pi0 pd0 reqCall =
      some (.err (Json.num 2) (-32000) "Compression failed: failed to decode image") :=
  ⟨(bridge_error_codes pi0 pd0 (Json.obj [])).1 rfl,
   (bridge_error_codes pi0 pd0 reqUnknown).2.2.1 (Json.num 1) rfl rfl (by decide),
   (bridge_error_codes pi0 pd0 reqCall).2.2.2.2.2.1 (Json.num 2) "a.png"
     .decodeFailed rfl rfl rfl rfl rfl rfl⟩

end ImageCompressor
